import Mathlib

/-!
Verification of the rust-calculator front end.

The parser is embedded from src/src/parser.rs. The Rust parser only ever
moves its position forward (next, peek, peek_nth, expect, skip_newlines),
so its state is modelled as the remaining suffix of the token list: every
parsing function consumes tokens from the front and returns the remainder.
Recursion is made total with a fuel argument; the top-level entry point
supplies fuel well beyond the recursion depth the Rust code can reach on
the given token list (the Rust recursion depth is bounded by a small
multiple of the token count, since every nesting level of the grammar
consumes at least one token).

The tokenizer and the evaluator of the repository are not under src/
(only main.rs and parser.rs are); they are modelled from the spec, as
marked on each definition.
-/

/-- Keyword variant of the tokenizer. `fn` and `if` are used by parser.rs;
the `else` keyword is listed by the spec's token vocabulary. -/
inductive Keyword where
  | kFn
  | kIf
  | kElse
deriving DecidableEq, Repr

/-- Token vocabulary, from the `Token` usage in src/src/parser.rs and the
spec's tokenizer section. -/
inductive Token where
  | number (text : String)
  | identifier (name : String)
  | keyword (k : Keyword)
  | plus
  | minus
  | star
  | slash
  | percent
  | caret
  | lparen
  | rparen
  | lbrace
  | rbrace
  | comma
  | equal
  | newline
deriving DecidableEq, Repr

/-- Tokenizer errors, from the spec's tokenizer contract. -/
inductive TokenizeError where
  | invalidNumber
  | unexpectedCharacter (c : Char)
deriving DecidableEq, Repr

/-- Parser errors, from the `ParseError` usage in src/src/parser.rs. -/
inductive ParseError where
  | unexpectedToken (t : Token)
  | expectedToken (t : Token)
  | expectedIdentifier
  | noTokensLeft
deriving DecidableEq, Repr

/-- Evaluation errors, from the spec's evaluator contract. -/
inductive EvalError where
  | undefinedVariable (name : String)
  | undefinedFunction (name : String)
  | wrongArity (expected got : Nat)
  | duplicateParameterName (name : String)
  | moduloByZero
  | domainError (description : String)
deriving DecidableEq, Repr

/-- Top-level error of one whole evaluation, as in `eval_str_ctx` of
src/src/main.rs (one variant per pipeline stage). -/
inductive CalcError where
  | tokenizeError (e : TokenizeError)
  | parseError (e : ParseError)
  | evalError (e : EvalError)
deriving DecidableEq, Repr

deriving instance DecidableEq for Except

attribute [local semireducible] Rat.add Rat.sub Rat.mul Rat.inv

/-- The AST, from the `AST` enum of src/src/parser.rs. Note that
`IfStatement` carries no else body: parser.rs has no such field. -/
inductive AST where
  | Lines (lines : List (Option AST))
  | Number (text : String)
  | Variable (name : String)
  | Add (lhs rhs : AST)
  | Subtract (lhs rhs : AST)
  | Multiply (lhs rhs : AST)
  | Divide (lhs rhs : AST)
  | Modulo (lhs rhs : AST)
  | Power (lhs rhs : AST)
  | UnaryMinus (val : AST)
  | Brackets (inner : AST)
  | Assign (name : String) (rhs : AST)
  | FunctionCall (name : String) (args : List AST)
  | FunctionDefinition (name : String) (argNames : List String) (body : AST)
  | IfStatement (condition : AST) (body : AST)

/-- `op_precedence` of src/src/parser.rs. The Rust function panics on a
token that is not an operator of the requested kind; those calls are
unreachable at every call site (callers match on operator tokens first),
so the catch-all result 0 is never consulted. -/
def opPrecedence (op : Token) (isBinary : Bool) : Nat :=
  match op, isBinary with
  | .plus, true => 1
  | .minus, true => 1
  | .star, true => 2
  | .slash, true => 2
  | .percent, true => 2
  | .caret, true => 3
  | .minus, false => 4
  | _, _ => 0

/-- The binary-operator guard used by the `while let` in `parse_expression`
and the operator match in `parse_expression_with_min_precedence`. -/
def isBinaryOp (t : Token) : Bool :=
  match t with
  | .plus | .minus | .star | .slash | .percent | .caret => true
  | _ => false

/-- `combine_lhs_rhs` of src/src/parser.rs. -/
def combineLhsRhs (op : Token) (lhs rhs : AST) : Except ParseError AST :=
  match op with
  | .plus => .ok (.Add lhs rhs)
  | .minus => .ok (.Subtract lhs rhs)
  | .star => .ok (.Multiply lhs rhs)
  | .slash => .ok (.Divide lhs rhs)
  | .percent => .ok (.Modulo lhs rhs)
  | .caret => .ok (.Power lhs rhs)
  | t => .error (.unexpectedToken t)

/-- `Parser::expect`: the next token must equal the expected one; on any
mismatch (or exhausted input) the error carries the expected token. -/
def expect (expected : Token) (ts : List Token) : Except ParseError (List Token) :=
  match ts with
  | t :: rest => if t = expected then .ok rest else .error (.expectedToken expected)
  | [] => .error (.expectedToken expected)

/-- `Parser::expect_identifier`. -/
def expectIdentifier (ts : List Token) : Except ParseError (String × List Token) :=
  match ts with
  | .identifier name :: rest => .ok (name, rest)
  | _ => .error .expectedIdentifier

/-- `Parser::skip_newlines`. -/
def skipNewlines (ts : List Token) : List Token :=
  match ts with
  | .newline :: rest => skipNewlines rest
  | ts => ts

/-- `Parser::parse_identifier_or_value`. -/
def parseIdentifierOrValue (ts : List Token) : Except ParseError (AST × List Token) :=
  match ts with
  | .identifier name :: rest => .ok (.Variable name, rest)
  | .number num :: rest => .ok (.Number num, rest)
  | t :: _ => .error (.unexpectedToken t)
  | [] => .error .noTokensLeft

/-- The tuple of mutually recursive parsing functions of src/src/parser.rs,
tied by fuel below; each field corresponds to one Rust method (the two
loop helpers crack the Rust `while` loops into tail recursion). -/
structure ParserFns where
  pBlock : List (Option AST) → Bool → List Token → Except ParseError (AST × List Token)
  pExpr : List Token → Except ParseError (AST × List Token)
  pExprLoop : AST → List Token → Except ParseError (AST × List Token)
  pMinPrec : Nat → List Token → Except ParseError (AST × List Token)
  pCall : List Token → Except ParseError (AST × List Token)
  pCallArgs : List AST → List Token → Except ParseError (List AST × List Token)
  pAssign : List Token → Except ParseError (AST × List Token)
  pFnDef : List Token → Except ParseError (AST × List Token)
  pDefArgs : List String → List Token → Except ParseError (List String × List Token)
  pIf : List Token → Except ParseError (AST × List Token)

/-- One iteration of the `parse_block` loop (lines are accumulated in
reverse). A newline consumes the token and pushes a blank line; a closing
brace stops without consuming; `fn` and `if` dispatch to their statement
parsers; an identifier directly followed by `=` dispatches to assignment;
anything else is an expression line, rejected with `UnexpectedToken` when
the previous iteration already parsed an expression line. -/
def parseBlockStep (prev : ParserFns) (lines : List (Option AST)) (flag : Bool)
    (ts : List Token) : Except ParseError (AST × List Token) :=
  match ts with
  | [] => .ok (.Lines lines.reverse, [])
  | t :: rest =>
    match t with
    | .newline => prev.pBlock (none :: lines) false rest
    | .rbrace => .ok (.Lines lines.reverse, t :: rest)
    | .keyword .kFn =>
      match prev.pFnDef (t :: rest) with
      | .error e => .error e
      | .ok (a, ts') => prev.pBlock (some a :: lines) false ts'
    | .keyword .kIf =>
      match prev.pIf (t :: rest) with
      | .error e => .error e
      | .ok (a, ts') => prev.pBlock (some a :: lines) false ts'
    | .identifier _ =>
      if rest.head? = some Token.equal then
        match prev.pAssign (t :: rest) with
        | .error e => .error e
        | .ok (a, ts') => prev.pBlock (some a :: lines) false ts'
      else
        if flag then .error (.unexpectedToken t)
        else
          match prev.pExpr (t :: rest) with
          | .error e => .error e
          | .ok (a, ts') => prev.pBlock (some a :: lines) true ts'
    | _ =>
      if flag then .error (.unexpectedToken t)
      else
        match prev.pExpr (t :: rest) with
        | .error e => .error e
        | .ok (a, ts') => prev.pBlock (some a :: lines) true ts'

/-- `parse_expression`: parse a first operand chain, fold trailing binary
operators, then skip trailing newlines. -/
def parseExpressionStep (prev : ParserFns) (ts : List Token) :
    Except ParseError (AST × List Token) :=
  match prev.pMinPrec 0 ts with
  | .error e => .error e
  | .ok (lhs, ts1) =>
    match prev.pExprLoop lhs ts1 with
    | .error e => .error e
    | .ok (res, ts2) => .ok (res, skipNewlines ts2)

/-- The `while let` loop of `parse_expression`: as long as the next token
is a binary operator, parse its right side with minimum precedence one
higher and combine. -/
def parseExprLoopStep (prev : ParserFns) (lhs : AST) (ts : List Token) :
    Except ParseError (AST × List Token) :=
  match ts with
  | op :: rest =>
    if isBinaryOp op then
      match prev.pMinPrec (opPrecedence op true + 1) rest with
      | .error e => .error e
      | .ok (rhs, ts') =>
        match combineLhsRhs op lhs rhs with
        | .error e => .error e
        | .ok combined => prev.pExprLoop combined ts'
    else .ok (lhs, op :: rest)
  | [] => .ok (lhs, [])

/-- `parse_expression_with_min_precedence`. A leading minus recurses at
the unary-minus precedence 4 (not 4 + 1, so minus chains are absorbed); a
parenthesis recurses into a full expression; a number or identifier whose
immediate successor is `(` is a function call; otherwise the atom is read
and an immediately following binary operator of precedence at least
`minPrec` is combined with a right side parsed at that precedence + 1. -/
def parseMinPrecStep (prev : ParserFns) (minPrec : Nat) (ts : List Token) :
    Except ParseError (AST × List Token) :=
  match ts with
  | .minus :: rest =>
    match prev.pMinPrec (opPrecedence .minus false) rest with
    | .error e => .error e
    | .ok (rhs, ts') => .ok (.UnaryMinus rhs, ts')
  | .lparen :: rest =>
    match prev.pExpr rest with
    | .error e => .error e
    | .ok (inner, ts') =>
      match expect .rparen ts' with
      | .error e => .error e
      | .ok ts'' => .ok (.Brackets inner, ts'')
  | t :: rest =>
    match t with
    | .identifier _ | .number _ =>
      if rest.head? = some Token.lparen then prev.pCall (t :: rest)
      else
        match parseIdentifierOrValue (t :: rest) with
        | .error e => .error e
        | .ok (lhs, ts1) =>
          match ts1 with
          | op :: rest2 =>
            if isBinaryOp op then
              if opPrecedence op true ≥ minPrec then
                match prev.pMinPrec (opPrecedence op true + 1) rest2 with
                | .error e => .error e
                | .ok (rhs, ts') =>
                  match combineLhsRhs op lhs rhs with
                  | .error e => .error e
                  | .ok combined => .ok (combined, ts')
              else .ok (lhs, ts1)
            else .ok (lhs, ts1)
          | [] => .ok (lhs, ts1)
    | _ => .error (.unexpectedToken t)
  | [] => .error .noTokensLeft

/-- `parse_function_call`. -/
def parseFunctionCallStep (prev : ParserFns) (ts : List Token) :
    Except ParseError (AST × List Token) :=
  match expectIdentifier ts with
  | .error e => .error e
  | .ok (fnName, ts1) =>
    match expect .lparen ts1 with
    | .error e => .error e
    | .ok ts2 =>
      match prev.pCallArgs [] ts2 with
      | .error e => .error e
      | .ok (args, ts3) =>
        match expect .rparen ts3 with
        | .error e => .error e
        | .ok ts4 => .ok (.FunctionCall fnName args, ts4)

/-- The argument loop of `parse_function_call`: while the next token is
not `)`, parse an expression; continue past a comma only when the token
after it is not `)` (so a trailing comma falls through to the close-paren
expectation). Arguments are accumulated in reverse. -/
def parseCallArgsStep (prev : ParserFns) (acc : List AST) (ts : List Token) :
    Except ParseError (List AST × List Token) :=
  match ts.head? with
  | some .rparen => .ok (acc.reverse, ts)
  | _ =>
    match prev.pExpr ts with
    | .error e => .error e
    | .ok (arg, ts1) =>
      match ts1 with
      | .comma :: rest2 =>
        if rest2.head? ≠ some Token.rparen then prev.pCallArgs (arg :: acc) rest2
        else .ok ((arg :: acc).reverse, ts1)
      | _ => .ok ((arg :: acc).reverse, ts1)

/-- `parse_assignment`. -/
def parseAssignmentStep (prev : ParserFns) (ts : List Token) :
    Except ParseError (AST × List Token) :=
  match expectIdentifier ts with
  | .error e => .error e
  | .ok (varName, ts1) =>
    match expect .equal ts1 with
    | .error e => .error e
    | .ok ts2 =>
      match prev.pExpr ts2 with
      | .error e => .error e
      | .ok (rhs, ts3) => .ok (.Assign varName rhs, ts3)

/-- `parse_function_definition`. -/
def parseFunctionDefinitionStep (prev : ParserFns) (ts : List Token) :
    Except ParseError (AST × List Token) :=
  match expect (.keyword .kFn) ts with
  | .error e => .error e
  | .ok ts0 =>
    match expectIdentifier ts0 with
    | .error e => .error e
    | .ok (fnName, ts1) =>
      match expect .lparen ts1 with
      | .error e => .error e
      | .ok ts2 =>
        match prev.pDefArgs [] ts2 with
        | .error e => .error e
        | .ok (argNames, ts3) =>
          match expect .rparen ts3 with
          | .error e => .error e
          | .ok ts4 =>
            match expect .lbrace (skipNewlines ts4) with
            | .error e => .error e
            | .ok ts5 =>
              match prev.pBlock [] false ts5 with
              | .error e => .error e
              | .ok (body, ts6) =>
                match expect .rbrace ts6 with
                | .error e => .error e
                | .ok ts7 => .ok (.FunctionDefinition fnName argNames body, ts7)

/-- The parameter loop of `parse_function_definition`: while the next
token is an identifier, take it; continue past a comma only when the
token after it is not `)`. Names are accumulated in reverse. -/
def parseDefArgsStep (prev : ParserFns) (acc : List String) (ts : List Token) :
    Except ParseError (List String × List Token) :=
  match ts with
  | .identifier argName :: rest =>
    match rest with
    | .comma :: rest2 =>
      if rest2.head? ≠ some Token.rparen then prev.pDefArgs (argName :: acc) rest2
      else .ok ((argName :: acc).reverse, rest)
    | _ => .ok ((argName :: acc).reverse, rest)
  | _ => .ok (acc.reverse, ts)

/-- `parse_if_statement` of src/src/parser.rs: `if ( expr ) ... body ...`
with no else clause of any kind. -/
def parseIfStatementStep (prev : ParserFns) (ts : List Token) :
    Except ParseError (AST × List Token) :=
  match expect (.keyword .kIf) ts with
  | .error e => .error e
  | .ok ts0 =>
    match expect .lparen ts0 with
    | .error e => .error e
    | .ok ts1 =>
      match prev.pExpr ts1 with
      | .error e => .error e
      | .ok (condition, ts2) =>
        match expect .rparen ts2 with
        | .error e => .error e
        | .ok ts3 =>
          match expect .lbrace (skipNewlines ts3) with
          | .error e => .error e
          | .ok ts4 =>
            match prev.pBlock [] false ts4 with
            | .error e => .error e
            | .ok (body, ts5) =>
              match expect .rbrace (skipNewlines ts5) with
              | .error e => .error e
              | .ok ts6 => .ok (.IfStatement condition body, ts6)

/-- Ties one more level of recursion. -/
def parserStep (prev : ParserFns) : ParserFns where
  pBlock := parseBlockStep prev
  pExpr := parseExpressionStep prev
  pExprLoop := parseExprLoopStep prev
  pMinPrec := parseMinPrecStep prev
  pCall := parseFunctionCallStep prev
  pCallArgs := parseCallArgsStep prev
  pAssign := parseAssignmentStep prev
  pFnDef := parseFunctionDefinitionStep prev
  pDefArgs := parseDefArgsStep prev
  pIf := parseIfStatementStep prev

/-- Exhausted fuel: never reached when the top-level fuel is supplied. -/
def parserFnsZero : ParserFns where
  pBlock := fun _ _ _ => .error .noTokensLeft
  pExpr := fun _ => .error .noTokensLeft
  pExprLoop := fun _ _ => .error .noTokensLeft
  pMinPrec := fun _ _ => .error .noTokensLeft
  pCall := fun _ => .error .noTokensLeft
  pCallArgs := fun _ _ => .error .noTokensLeft
  pAssign := fun _ => .error .noTokensLeft
  pFnDef := fun _ => .error .noTokensLeft
  pDefArgs := fun _ _ => .error .noTokensLeft
  pIf := fun _ => .error .noTokensLeft

/-- The family of parser functions at every fuel. -/
def parserFns : Nat → ParserFns
  | 0 => parserFnsZero
  | fuel + 1 => parserStep (parserFns fuel)

/-- Fuel supplied by the top-level entry point: far beyond the recursion
depth reachable on `ts` (every nesting level consumes at least one
token, with at most a constant number of fuel steps per token). -/
def parseFuel (ts : List Token) : Nat := 8 * ts.length + 64

/-- `parse` (via `Parser::parse`) of src/src/parser.rs: parse one block,
then require the token stream to be fully consumed; the first leftover
token is an `UnexpectedToken` error. -/
def parse (ts : List Token) : Except ParseError AST :=
  match (parserFns (parseFuel ts)).pBlock [] false ts with
  | .error e => .error e
  | .ok (_, t :: _) => .error (.unexpectedToken t)
  | .ok (ast, []) => .ok ast

/-! ## Tokenizer, modelled from the spec (tokenizer.rs is not under src/) -/

/-- Character class of a numeric-literal run. -/
def isNumChar (c : Char) : Bool := c.isDigit || c = '.'

/-- Character class of an identifier run after its first character. -/
def isIdentChar (c : Char) : Bool := c.isAlphanum || c = '_'

/-- Modelled from the spec: a maximal run of digits and points is a valid
numeric literal when it has at most one point and at least one digit. -/
def validNumber (cs : List Char) : Bool :=
  cs.count '.' ≤ 1 && cs.any Char.isDigit

/-- Modelled from the spec: the two-plus-one reserved words tokenize as
keywords, any other letter/underscore-led run as an identifier. -/
def identToken (s : String) : Token :=
  if s = "fn" then .keyword .kFn
  else if s = "if" then .keyword .kIf
  else if s = "else" then .keyword .kElse
  else .identifier s

/-- Modelled from the spec, one step per token: newline characters become
explicit newline tokens, intra-line whitespace is skipped, maximal
digit/point runs become (validated) number tokens, letter/underscore-led
alphanumeric runs become identifiers or keywords, single-character
punctuation maps to its token, and any other character is an error. Fuel
is an artifact of totality; every step consumes at least one character,
so the supplied fuel is never exhausted. -/
def tokenizeFuel : Nat → List Char → Except TokenizeError (List Token)
  | 0, _ => .error (.unexpectedCharacter '?')
  | _, [] => .ok []
  | fuel + 1, c :: rest =>
    if c = '\n' then
      match tokenizeFuel fuel rest with
      | .error e => .error e
      | .ok toks => .ok (.newline :: toks)
    else if c = ' ' || c = '\t' then tokenizeFuel fuel rest
    else if isNumChar c then
      let run := (c :: rest).takeWhile isNumChar
      if validNumber run then
        match tokenizeFuel fuel ((c :: rest).dropWhile isNumChar) with
        | .error e => .error e
        | .ok toks => .ok (.number (String.mk run) :: toks)
      else .error .invalidNumber
    else if c.isAlpha || c = '_' then
      let run := (c :: rest).takeWhile isIdentChar
      match tokenizeFuel fuel ((c :: rest).dropWhile isIdentChar) with
      | .error e => .error e
      | .ok toks => .ok (identToken (String.mk run) :: toks)
    else
      let tok : Except TokenizeError Token :=
        if c = '+' then .ok .plus
        else if c = '-' then .ok .minus
        else if c = '*' then .ok .star
        else if c = '/' then .ok .slash
        else if c = '%' then .ok .percent
        else if c = '^' then .ok .caret
        else if c = '(' then .ok .lparen
        else if c = ')' then .ok .rparen
        else if c = '{' then .ok .lbrace
        else if c = '}' then .ok .rbrace
        else if c = ',' then .ok .comma
        else if c = '=' then .ok .equal
        else .error (.unexpectedCharacter c)
      match tok with
      | .error e => .error e
      | .ok t =>
        match tokenizeFuel fuel rest with
        | .error e => .error e
        | .ok toks => .ok (t :: toks)

/-- `tokenize`, modelled from the spec. -/
def tokenize (s : String) : Except TokenizeError (List Token) :=
  tokenizeFuel (s.length + 1) s.data

/-! ## Evaluator, modelled from the spec (eval.rs is not under src/)

The spec makes values IEEE double-precision floats. The model uses exact
rationals: on every input exercised below (small integers combined by
`+ - * ^` with integer exponents) double arithmetic is exact, so the two
agree. Deviations (noted per definition) concern only operations no claim
exercises: transcendental builtins, fractional exponents, division by
zero. -/

/-- Modelled from the spec: numeric literal text (digits with at most one
point) is converted to its exact value at evaluation time. -/
def parseNumber (s : String) : Option ℚ :=
  let cs := s.data
  if cs.all isNumChar && validNumber cs then
    let intPart := cs.takeWhile (fun c => c ≠ '.')
    let fracPart := (cs.dropWhile (fun c => c ≠ '.')).drop 1
    let natVal : List Char → Nat := fun ds => ds.foldl (fun n c => n * 10 + (c.toNat - 48)) 0
    some ((natVal intPart : ℚ) + (natVal fracPart : ℚ) / ((10 : ℚ) ^ fracPart.length))
  else none

/-- A function table entry, modelled from the spec. The Rust builtin also
receives the context; no builtin is registered in this model (see
`Context.new`), so that parameter is dropped to keep `Function` and
`Context` from being mutually recursive. -/
inductive Function where
  | builtin (arity : Nat) (f : List ℚ → Except EvalError ℚ)
  | userDefined (argNames : List String) (body : AST)

/-- The mutable evaluation state, modelled from the spec: two independent
name tables, variables and functions. -/
structure Context where
  vars : List (String × ℚ)
  funcs : List (String × Function)

/-- Variable lookup (latest binding wins because updates are in place). -/
def Context.getVar (ctx : Context) (name : String) : Option ℚ :=
  (ctx.vars.find? (fun p => p.1 = name)).map (fun p => p.2)

/-- Update-or-append on an association list. -/
def setAssoc {α : Type} (l : List (String × α)) (name : String) (v : α) :
    List (String × α) :=
  match l with
  | [] => [(name, v)]
  | (k, w) :: rest => if k = name then (k, v) :: rest else (k, w) :: setAssoc rest name v

/-- Variable binding: overwrites any prior value. -/
def Context.setVar (ctx : Context) (name : String) (v : ℚ) : Context :=
  { ctx with vars := setAssoc ctx.vars name v }

/-- Function lookup. -/
def Context.getFun (ctx : Context) (name : String) : Option Function :=
  (ctx.funcs.find? (fun p => p.1 = name)).map (fun p => p.2)

/-- Function registration. -/
def Context.addFun (ctx : Context) (name : String) (f : Function) : Context :=
  { ctx with funcs := setAssoc ctx.funcs name f }

/-- Modelled from the spec: a fresh context seeds the circle constant and
the natural-log base as ordinary variables. The values are the exact
rationals denoted by the IEEE doubles nearest pi and e; the claims below
never read them, only their names matter (for name-collision behavior).
The spec also requires a table of builtin math functions (sin, cos, ...);
those compute on IEEE doubles and have no exact-rational counterpart, and
no claim calls any builtin, so the model's fresh function table is empty. -/
def Context.new : Context :=
  { vars := [("pi", (884279719003555 : ℚ) / 281474976710656),
             ("e", (6121026514868073 : ℚ) / 2251799813685248)],
    funcs := [] }

/-- Truncation toward zero, for the remainder's dividend-sign rule. -/
def ratTrunc (q : ℚ) : ℤ := if q < 0 then Rat.ceil q else Rat.floor q

/-- Modelled from the spec: the remainder with the sign of the dividend;
zero divisor is a hard error. -/
def ratMod (a b : ℚ) : Except EvalError ℚ :=
  if b = 0 then .error .moduloByZero
  else .ok (a - (ratTrunc (a / b) : ℚ) * b)

/-- Modelled from the spec: exponentiation via the standard power
function. Exact for integer exponents, which covers every power any claim
evaluates; a fractional exponent (an irrational result in general, an
IEEE-double computation in the source) is surfaced as a domain error in
this exact-rational model. -/
def ratPow (b e : ℚ) : Except EvalError ℚ :=
  if e.den = 1 then .ok (b ^ e.num) else .error (.domainError "non-integer exponent")

/-- First parameter name that reappears later in the list, if any. -/
def firstDup (l : List String) : Option String :=
  match l with
  | [] => none
  | x :: rest => if rest.contains x then some x else firstDup rest

/-- The tuple of mutually recursive evaluation functions, tied by fuel
below (fuel is an artifact of totality: the source recursion is unbounded
only through user-defined function calls, where the Rust code accepts
stack exhaustion; the model returns a domain error when fuel runs out,
which no claim's input reaches). -/
structure EvalFns where
  evalAst : Context → AST → Except EvalError (ℚ × Context)
  evalLines : Context → ℚ → List (Option AST) → Except EvalError (ℚ × Context)
  evalArgs : Context → List ℚ → List AST → Except EvalError (List ℚ × Context)

/-- One level of AST evaluation, modelled from the spec's evaluator
section case by case (`IfStatement` has no else body in this AST: a zero
condition yields 0). -/
def evalAstStep (prev : EvalFns) (ctx : Context) (ast : AST) :
    Except EvalError (ℚ × Context) :=
  match ast with
  | .Lines ls => prev.evalLines ctx 0 ls
  | .Number s =>
    match parseNumber s with
    | some v => .ok (v, ctx)
    | none => .error (.domainError "malformed number literal")
  | .Variable name =>
    match ctx.getVar name with
    | some v => .ok (v, ctx)
    | none => .error (.undefinedVariable name)
  | .Add l r =>
    match prev.evalAst ctx l with
    | .error e => .error e
    | .ok (a, c1) =>
      match prev.evalAst c1 r with
      | .error e => .error e
      | .ok (b, c2) => .ok (a + b, c2)
  | .Subtract l r =>
    match prev.evalAst ctx l with
    | .error e => .error e
    | .ok (a, c1) =>
      match prev.evalAst c1 r with
      | .error e => .error e
      | .ok (b, c2) => .ok (a - b, c2)
  | .Multiply l r =>
    match prev.evalAst ctx l with
    | .error e => .error e
    | .ok (a, c1) =>
      match prev.evalAst c1 r with
      | .error e => .error e
      | .ok (b, c2) => .ok (a * b, c2)
  | .Divide l r =>
    match prev.evalAst ctx l with
    | .error e => .error e
    | .ok (a, c1) =>
      match prev.evalAst c1 r with
      | .error e => .error e
      | .ok (b, c2) => .ok (a / b, c2)
  | .Modulo l r =>
    match prev.evalAst ctx l with
    | .error e => .error e
    | .ok (a, c1) =>
      match prev.evalAst c1 r with
      | .error e => .error e
      | .ok (b, c2) =>
        match ratMod a b with
        | .error e => .error e
        | .ok v => .ok (v, c2)
  | .Power l r =>
    match prev.evalAst ctx l with
    | .error e => .error e
    | .ok (a, c1) =>
      match prev.evalAst c1 r with
      | .error e => .error e
      | .ok (b, c2) =>
        match ratPow a b with
        | .error e => .error e
        | .ok v => .ok (v, c2)
  | .UnaryMinus e =>
    match prev.evalAst ctx e with
    | .error err => .error err
    | .ok (a, c) => .ok (-a, c)
  | .Brackets e => prev.evalAst ctx e
  | .Assign name e =>
    match prev.evalAst ctx e with
    | .error err => .error err
    | .ok (v, c) => .ok (v, c.setVar name v)
  | .FunctionCall name args =>
    match ctx.getFun name with
    | none => .error (.undefinedFunction name)
    | some (.builtin arity f) =>
      if args.length = arity then
        match prev.evalArgs ctx [] args with
        | .error e => .error e
        | .ok (vals, c') =>
          match f vals with
          | .error e => .error e
          | .ok v => .ok (v, c')
      else .error (.wrongArity arity args.length)
    | some (.userDefined params body) =>
      if args.length = params.length then
        match prev.evalArgs ctx [] args with
        | .error e => .error e
        | .ok (vals, c') =>
          match prev.evalAst { vars := params.zip vals, funcs := c'.funcs } body with
          | .error e => .error e
          | .ok (v, _) => .ok (v, c')
      else .error (.wrongArity params.length args.length)
  | .FunctionDefinition name argNames body =>
    match firstDup argNames with
    | some d => .error (.duplicateParameterName d)
    | none => .ok (0, ctx.addFun name (.userDefined argNames body))
  | .IfStatement cond body =>
    match prev.evalAst ctx cond with
    | .error e => .error e
    | .ok (c, ctx1) => if c ≠ 0 then prev.evalAst ctx1 body else .ok (0, ctx1)

/-- Sequential evaluation of a block's lines, modelled from the spec:
blank lines contribute nothing, each statement folds its side effects
into the context, and the block's value is the last statement's value
(the accumulator starts at 0, so an empty or all-blank block is 0). -/
def evalLinesStep (prev : EvalFns) (ctx : Context) (acc : ℚ)
    (ls : List (Option AST)) : Except EvalError (ℚ × Context) :=
  match ls with
  | [] => .ok (acc, ctx)
  | none :: rest => prev.evalLines ctx acc rest
  | some a :: rest =>
    match prev.evalAst ctx a with
    | .error e => .error e
    | .ok (v, ctx') => prev.evalLines ctx' v rest

/-- Left-to-right evaluation of call arguments in the caller's scope
(accumulated in reverse), modelled from the spec. -/
def evalArgsStep (prev : EvalFns) (ctx : Context) (acc : List ℚ)
    (args : List AST) : Except EvalError (List ℚ × Context) :=
  match args with
  | [] => .ok (acc.reverse, ctx)
  | a :: rest =>
    match prev.evalAst ctx a with
    | .error e => .error e
    | .ok (v, ctx') => prev.evalArgs ctx' (v :: acc) rest

/-- Ties one more level of evaluation recursion. -/
def evalStep (prev : EvalFns) : EvalFns where
  evalAst := evalAstStep prev
  evalLines := evalLinesStep prev
  evalArgs := evalArgsStep prev

/-- Exhausted fuel (see `EvalFns`). -/
def evalFnsZero : EvalFns where
  evalAst := fun _ _ => .error (.domainError "recursion limit")
  evalLines := fun _ _ _ => .error (.domainError "recursion limit")
  evalArgs := fun _ _ _ => .error (.domainError "recursion limit")

/-- The family of evaluation functions at every fuel. -/
def evalFns : Nat → EvalFns
  | 0 => evalFnsZero
  | fuel + 1 => evalStep (evalFns fuel)

/-- Evaluation fuel for a program parsed from a given token list: an AST
parsed from `ts` has no more nodes than tokens (every node consumes at
least one), so this exceeds the recursion depth of any evaluation that
does not call user-defined functions; only unbounded user recursion,
which aborts the Rust process by stack exhaustion, can exhaust it. -/
def evalFuel (ts : List Token) : Nat := ts.length + 1000

/-- `evaluate`, modelled from the spec, at a fixed ample fuel (used below
only on small concrete trees; the program-level entry points size their
fuel by token count instead, see `evalFuel`). -/
def evaluate (ctx : Context) (ast : AST) : Except EvalError (ℚ × Context) :=
  (evalFns 1000).evalAst ctx ast

/-- `eval_str_ctx` of src/src/main.rs: tokenize, parse, evaluate. -/
def evalStrCtx (s : String) (ctx : Context) : Except CalcError (ℚ × Context) :=
  match tokenize s with
  | .error e => .error (.tokenizeError e)
  | .ok tokens =>
    match parse tokens with
    | .error e => .error (.parseError e)
    | .ok ast =>
      match (evalFns (evalFuel tokens)).evalAst ctx ast with
      | .error e => .error (.evalError e)
      | .ok (v, ctx') => .ok (v, ctx')

/-- `eval_str` of the tests in src/src/main.rs: evaluate against a fresh
context, keeping the value. -/
def evalStr (s : String) : Except CalcError ℚ :=
  (evalStrCtx s Context.new).map (fun p => p.1)

/-- Run a token list through the parser of src/src/parser.rs and the
modelled evaluator against a fresh context, keeping the value. -/
def evalTokens (ts : List Token) : Except CalcError ℚ :=
  match parse ts with
  | .error e => .error (.parseError e)
  | .ok ast =>
    match (evalFns (evalFuel ts)).evalAst Context.new ast with
    | .error e => .error (.evalError e)
    | .ok (v, _) => .ok v

/-- The branch classification used by `parse_block`'s catch-all arm: a
token list begins an expression line exactly when it is nonempty and its
head is not a newline, not a closing brace, not the `fn` or `if` keyword,
and not an identifier directly followed by `=`. -/
def startsExprLine (ts : List Token) : Bool :=
  match ts with
  | [] => false
  | t :: rest =>
    match t with
    | .newline => false
    | .rbrace => false
    | .keyword .kFn => false
    | .keyword .kIf => false
    | .identifier _ => if rest.head? = some Token.equal then false else true
    | _ => true

/-- `n` nested unary-minus nodes around an expression. -/
def iterUM : Nat → AST → AST
  | 0, e => e
  | n + 1, e => .UnaryMinus (iterUM n e)

/-! ## Theorems -/

theorem parserStep_pBlock (p : ParserFns) :
    (parserStep p).pBlock = parseBlockStep p := rfl

theorem parserStep_pExpr (p : ParserFns) :
    (parserStep p).pExpr = parseExpressionStep p := rfl

theorem parserStep_pExprLoop (p : ParserFns) :
    (parserStep p).pExprLoop = parseExprLoopStep p := rfl

theorem parserStep_pMinPrec (p : ParserFns) :
    (parserStep p).pMinPrec = parseMinPrecStep p := rfl

theorem parserStep_pCall (p : ParserFns) :
    (parserStep p).pCall = parseFunctionCallStep p := rfl

theorem parserStep_pCallArgs (p : ParserFns) :
    (parserStep p).pCallArgs = parseCallArgsStep p := rfl

theorem parserFns_succ (n : Nat) :
    parserFns (n + 1) = parserStep (parserFns n) := rfl

theorem evalStep_evalAst (p : EvalFns) :
    (evalStep p).evalAst = evalAstStep p := rfl

theorem evalStep_evalLines (p : EvalFns) :
    (evalStep p).evalLines = evalLinesStep p := rfl

theorem evalStep_evalArgs (p : EvalFns) :
    (evalStep p).evalArgs = evalArgsStep p := rfl

theorem evalFns_succ (n : Nat) :
    evalFns (n + 1) = evalStep (evalFns n) := rfl

/-- Claim C5: the caret operator is left-associative: parsing a caret b
caret c (for atomic and for parenthesized operands) groups as (a caret b)
caret c, in particular 2^3^2 groups as (2^3)^2, because the right side of
a caret is parsed with minimum precedence 4 while caret itself has
precedence 3. -/
theorem claim_C5_power_left_assoc :
    (∀ (a b c : String), parse [.number a, .caret, .number b, .caret, .number c]
      = .ok (.Lines [some (.Power (.Power (.Number a) (.Number b)) (.Number c))]))
    ∧ (∀ (a b c : String),
      parse [.lparen, .number a, .rparen, .caret, .lparen, .number b, .rparen,
             .caret, .lparen, .number c, .rparen]
      = .ok (.Lines [some (.Power (.Power (.Brackets (.Number a)) (.Brackets (.Number b)))
          (.Brackets (.Number c)))]))
    ∧ parse [.number "2", .caret, .number "3", .caret, .number "2"]
      = .ok (.Lines [some (.Power (.Power (.Number "2") (.Number "3")) (.Number "2"))]) :=
  ⟨fun _ _ _ => rfl, fun _ _ _ => rfl, rfl⟩

/-- Claim C6: a unary-minus atom combines with a following caret as
(-x) ^ y, and the concrete evaluations (-1)^4 = 1, -1^4 = 1, -1^5 = -1
hold. -/
theorem claim_C6_unary_minus_power :
    (∀ (x y : String), parse [.minus, .number x, .caret, .number y]
      = .ok (.Lines [some (.Power (.UnaryMinus (.Number x)) (.Number y))]))
    ∧ evalTokens [.lparen, .minus, .number "1", .rparen, .caret, .number "4"] = .ok 1
    ∧ evalTokens [.minus, .number "1", .caret, .number "4"] = .ok 1
    ∧ evalTokens [.minus, .number "1", .caret, .number "5"] = .ok (-1) :=
  ⟨fun _ _ => rfl, by decide, by decide, by decide⟩

/-- Claim C9: when block parsing returns with tokens remaining, the
top-level parse entry returns an UnexpectedToken error carrying the first
leftover token. -/
theorem claim_C9_leftover_tokens (ts rest : List Token) (ast : AST) (t : Token)
    (h : (parserFns (parseFuel ts)).pBlock [] false ts = .ok (ast, t :: rest)) :
    parse ts = .error (.unexpectedToken t) := by
  simp [parse, h]

/-- Witness for claim C9: a stray closing brace at top level, where block
parsing stops without consuming, is an UnexpectedToken error. -/
theorem claim_C9_witness :
    parse [Token.rbrace] = .error (.unexpectedToken Token.rbrace) :=
  claim_C9_leftover_tokens [Token.rbrace] [] (.Lines []) Token.rbrace rfl

/-- Claim C10: call arguments are zero or more comma-separated
expressions; a trailing comma before the close paren is rejected through
the close-paren expectation, as is a missing comma between two arguments. -/
theorem claim_C10_call_arguments :
    parse [.identifier "add", .lparen, .number "1", .comma, .rparen]
      = .error (.expectedToken .rparen)
    ∧ parse [.identifier "add", .lparen, .number "1", .number "1", .rparen]
      = .error (.expectedToken .rparen)
    ∧ parse [.identifier "add", .lparen, .rparen]
      = .ok (.Lines [some (.FunctionCall "add" [])])
    ∧ (∀ (f a b : String), parse [.identifier f, .lparen, .number a, .comma, .number b, .rparen]
      = .ok (.Lines [some (.FunctionCall f [.Number a, .Number b])])) :=
  ⟨rfl, rfl, rfl, fun _ _ _ => rfl⟩

/-- Claim C1 (code bug): parser.rs has no else clause at all — its
IfStatement node carries no else body and parse_if_statement consumes
nothing after the if body's closing brace — so the else program required
by the spec and by test_if_statements in src/src/main.rs is a parse
error (UnexpectedToken on the else keyword) instead of evaluating to 3. -/
theorem claim_C1_else_unsupported :
    evalStr "if (0) \x7b a = 2 \x7d else \x7b a = 3 \x7d\na"
      = .error (.parseError (.unexpectedToken (.keyword .kElse)))
    ∧ parse [.keyword .kIf, .lparen, .number "0", .rparen, .lbrace,
        .identifier "a", .equal, .number "2", .rbrace, .keyword .kElse, .lbrace,
        .identifier "a", .equal, .number "3", .rbrace, .newline, .identifier "a"]
      = .error (.unexpectedToken (.keyword .kElse)) :=
  ⟨rfl, rfl⟩

/-- Counterexample to claim C2: the input with tokens a b = 2 is not
rejected by the parser at all — it parses as the bare expression
statement a followed by the assignment b = 2, because the look-ahead
applies afresh at the second token. -/
theorem claim_C2_counterexample :
    parse [.identifier "a", .identifier "b", .equal, .number "2"]
      = .ok (.Lines [some (.Variable "a"), some (.Assign "b" (.Number "2"))]) :=
  rfl

/-- Claim C2 as amended: 2 = 2, * = 2 and () = 2 are parse errors, but
a b = 2 parses (expression statement a, then assignment b = 2) and fails
only at evaluation with UndefinedVariable a. -/
theorem claim_C2_amended :
    parse [.number "2", .equal, .number "2"] = .error (.unexpectedToken .equal)
    ∧ parse [.star, .equal, .number "2"] = .error (.unexpectedToken .star)
    ∧ parse [.lparen, .rparen, .equal, .number "2"] = .error (.unexpectedToken .rparen)
    ∧ parse [.identifier "a", .identifier "b", .equal, .number "2"]
      = .ok (.Lines [some (.Variable "a"), some (.Assign "b" (.Number "2"))])
    ∧ evaluate Context.new (.Lines [some (.Variable "a"), some (.Assign "b" (.Number "2"))])
      = .error (.undefinedVariable "a") :=
  ⟨rfl, rfl, rfl, rfl, rfl⟩

/-- Claim C4: statements of a multi-line program evaluate sequentially
against the same context, the result is the last non-blank statement's
value, and an empty or newlines-only input evaluates to 0 (general
all-blank case included as the last conjunct). -/
theorem claim_C4_sequential_evaluation :
    evalStr "" = .ok 0
    ∧ evalStr "\n\n\n" = .ok 0
    ∧ evalStr "a = 2\nb = 3\nc = a + b" = .ok 5
    ∧ (evalStrCtx "a = 2\nb = 3\nc = a + b" Context.new).toOption.map
        (fun p => (p.2.getVar "a", p.2.getVar "b", p.2.getVar "c"))
      = some (some 2, some 3, some 5)
    ∧ (∀ (fuel : Nat) (ctx : Context) (acc : ℚ) (ls : List (Option AST)),
        (∀ o ∈ ls, o = none) → ls.length + 1 ≤ fuel →
        (evalFns fuel).evalLines ctx acc ls = .ok (acc, ctx)) := by
  refine ⟨by decide, by decide, by decide, by decide, ?_⟩
  intro fuel ctx acc ls
  induction ls generalizing fuel ctx with
  | nil =>
    intro _ hf
    cases fuel with
    | zero => omega
    | succ m => rfl
  | cons o rest ih =>
    intro hall hf
    have ho : o = none := hall o (by simp)
    subst ho
    cases fuel with
    | zero => omega
    | succ m =>
      rw [evalFns_succ, evalStep_evalLines]
      show evalLinesStep (evalFns m) ctx acc (none :: rest) = _
      simp only [evalLinesStep]
      exact ih m ctx (fun o ho => hall o (List.mem_cons_of_mem _ ho)) (by simp at hf ⊢; omega)

/-- Witness for claim C4: an all-blank two-line block keeps the initial
accumulator 0 and the context unchanged. -/
theorem claim_C4_witness :
    (evalFns 3).evalLines Context.new 0 [none, none] = .ok (0, Context.new) :=
  claim_C4_sequential_evaluation.2.2.2.2 3 Context.new 0 [none, none]
    (by simp) (by decide)

theorem skipNewlines_head_ne (ts : List Token) :
    (skipNewlines ts).head? ≠ some Token.newline := by
  induction ts with
  | nil => simp [skipNewlines]
  | cons t rest ih => cases t <;> simp [skipNewlines, ih]

theorem pExpr_consumes_newlines (fuel : Nat) (ts rest : List Token) (a : AST)
    (h : (parserFns fuel).pExpr ts = .ok (a, rest)) :
    rest.head? ≠ some Token.newline := by
  cases fuel with
  | zero => simp [parserFns, parserFnsZero] at h
  | succ m =>
    rw [parserFns_succ, parserStep_pExpr] at h
    unfold parseExpressionStep at h
    cases hmp : (parserFns m).pMinPrec 0 ts with
    | error e => simp only [hmp] at h; exact absurd h (by simp)
    | ok p =>
      obtain ⟨lhs, ts1⟩ := p
      simp only [hmp] at h
      cases hl : (parserFns m).pExprLoop lhs ts1 with
      | error e => simp only [hl] at h; exact absurd h (by simp)
      | ok q =>
        obtain ⟨res, ts2⟩ := q
        simp only [hl, Except.ok.injEq, Prod.mk.injEq] at h
        rw [← h.2]
        exact skipNewlines_head_ne ts2

theorem parseBlock_flag_rejects (m : Nat) (lines : List (Option AST)) (t2 : Token)
    (rest2 : List Token) (h2 : startsExprLine (t2 :: rest2) = true) :
    (parserFns (m + 1)).pBlock lines true (t2 :: rest2)
      = .error (.unexpectedToken t2) := by
  rw [parserFns_succ, parserStep_pBlock]
  cases t2 with
  | newline => simp [startsExprLine] at h2
  | rbrace => simp [startsExprLine] at h2
  | keyword k =>
    cases k with
    | kFn => simp [startsExprLine] at h2
    | kIf => simp [startsExprLine] at h2
    | kElse => rfl
  | identifier name =>
    have hne : ¬(rest2.head? = some Token.equal) := by
      intro hc
      simp [startsExprLine, hc] at h2
    simp [parseBlockStep, hne]
  | number s => rfl
  | plus => rfl
  | minus => rfl
  | star => rfl
  | slash => rfl
  | percent => rfl
  | caret => rfl
  | lparen => rfl
  | rparen => rfl
  | lbrace => rfl
  | comma => rfl
  | equal => rfl

theorem parseBlock_consecutive (fuel : Nat) (lines : List (Option AST))
    (ts ts2 rest2 : List Token) (a : AST) (t2 : Token)
    (h1 : startsExprLine ts = true)
    (hE : (parserFns fuel).pExpr ts = .ok (a, ts2))
    (hts2 : ts2 = t2 :: rest2)
    (h2 : startsExprLine ts2 = true) :
    (parserFns (fuel + 1)).pBlock lines false ts = .error (.unexpectedToken t2) := by
  subst hts2
  cases fuel with
  | zero => simp [parserFns, parserFnsZero] at hE
  | succ m =>
    rw [parserFns_succ, parserStep_pBlock]
    cases ts with
    | nil => simp [startsExprLine] at h1
    | cons t1 irest =>
      have hflag := parseBlock_flag_rejects m (some a :: lines) t2 rest2 h2
      cases t1 with
      | newline => simp [startsExprLine] at h1
      | rbrace => simp [startsExprLine] at h1
      | keyword k =>
        cases k with
        | kFn => simp [startsExprLine] at h1
        | kIf => simp [startsExprLine] at h1
        | kElse =>
          simp only [parseBlockStep, hE]
          exact hflag
      | identifier name =>
        have hne : ¬(irest.head? = some Token.equal) := by
          intro hc
          simp [startsExprLine, hc] at h1
        simp [parseBlockStep, hne, hE]
        exact hflag
      | number s =>
        simp only [parseBlockStep, hE]
        exact hflag
      | plus =>
        simp only [parseBlockStep, hE]
        exact hflag
      | minus =>
        simp only [parseBlockStep, hE]
        exact hflag
      | star =>
        simp only [parseBlockStep, hE]
        exact hflag
      | slash =>
        simp only [parseBlockStep, hE]
        exact hflag
      | percent =>
        simp only [parseBlockStep, hE]
        exact hflag
      | caret =>
        simp only [parseBlockStep, hE]
        exact hflag
      | lparen =>
        simp only [parseBlockStep, hE]
        exact hflag
      | rparen =>
        simp only [parseBlockStep, hE]
        exact hflag
      | lbrace =>
        simp only [parseBlockStep, hE]
        exact hflag
      | comma =>
        simp only [parseBlockStep, hE]
        exact hflag
      | equal =>
        simp only [parseBlockStep, hE]
        exact hflag

/-- Claim C3: a program of two bare expression lines separated only by
newline tokens is a parse error with UnexpectedToken on the second line's
first token, because parse_expression consumes all trailing newlines
(second conjunct: the remainder it leaves never starts with a newline),
so parse_block treats the second line as directly consecutive. -/
theorem claim_C3_newline_separated_expressions :
    (∀ (ts1 ts2 rest2 : List Token) (k : Nat) (a : AST) (t2 : Token),
      1 ≤ k →
      ts2 = t2 :: rest2 →
      startsExprLine (ts1 ++ (List.replicate k Token.newline ++ ts2)) = true →
      (parserFns (8 * (ts1 ++ (List.replicate k Token.newline ++ ts2)).length + 63)).pExpr
          (ts1 ++ (List.replicate k Token.newline ++ ts2)) = .ok (a, ts2) →
      startsExprLine ts2 = true →
      parse (ts1 ++ (List.replicate k Token.newline ++ ts2))
        = .error (.unexpectedToken t2))
    ∧ (∀ (fuel : Nat) (ts rest : List Token) (a : AST),
        (parserFns fuel).pExpr ts = .ok (a, rest) → rest.head? ≠ some Token.newline) := by
  constructor
  · intro ts1 ts2 rest2 k a t2 _ hts2 h1 hE h2
    have key := parseBlock_consecutive
      (8 * (ts1 ++ (List.replicate k Token.newline ++ ts2)).length + 63)
      [] (ts1 ++ (List.replicate k Token.newline ++ ts2)) ts2 rest2 a t2 h1 hE hts2 h2
    unfold parse parseFuel
    rw [show 8 * (ts1 ++ (List.replicate k Token.newline ++ ts2)).length + 64
        = 8 * (ts1 ++ (List.replicate k Token.newline ++ ts2)).length + 63 + 1 from rfl]
    rw [key]
  · intro fuel ts rest a h
    exact pExpr_consumes_newlines fuel ts rest a h

/-- Witness for claim C3: the program 1 newline 2 fails with
UnexpectedToken on the number 2. -/
theorem claim_C3_witness :
    parse [Token.number "1", Token.newline, Token.number "2"]
      = .error (.unexpectedToken (Token.number "2")) :=
  claim_C3_newline_separated_expressions.1 [Token.number "1"] [Token.number "2"] [] 1
    (.Number "1") (Token.number "2") (by decide) rfl (by decide) rfl (by decide)

/-- Counterexample to claim C8: the bare expression statements a and (2)
placed consecutively on one line do not produce a parse error at all: the
function-call look-ahead merges them into the single call a(2). -/
theorem claim_C8_counterexample :
    parse [.identifier "a"] = .ok (.Lines [some (.Variable "a")])
    ∧ parse [.lparen, .number "2", .rparen] = .ok (.Lines [some (.Brackets (.Number "2"))])
    ∧ parse [.identifier "a", .lparen, .number "2", .rparen]
      = .ok (.Lines [some (.FunctionCall "a" [.Number "2"])]) :=
  ⟨rfl, rfl, rfl⟩

/-- Claim C8 as amended: two consecutive expression statements with no
intervening newline are an UnexpectedToken parse error on the second
statement's first token, provided block parsing reaches the second
statement as a new line (the first statement's expression parse consumes
exactly its own tokens; when the first ends in a bare identifier or
number and the second starts with an opening parenthesis, the
function-call look-ahead merges them instead). -/
theorem claim_C8_missing_newline :
    ∀ (ts1 ts2 rest2 : List Token) (a : AST) (t2 : Token),
      ts2 = t2 :: rest2 →
      startsExprLine (ts1 ++ ts2) = true →
      (parserFns (8 * (ts1 ++ ts2).length + 63)).pExpr (ts1 ++ ts2) = .ok (a, ts2) →
      startsExprLine ts2 = true →
      parse (ts1 ++ ts2) = .error (.unexpectedToken t2) := by
  intro ts1 ts2 rest2 a t2 hts2 h1 hE h2
  have key := parseBlock_consecutive (8 * (ts1 ++ ts2).length + 63)
    [] (ts1 ++ ts2) ts2 rest2 a t2 h1 hE hts2 h2
  unfold parse parseFuel
  rw [show 8 * (ts1 ++ ts2).length + 64 = 8 * (ts1 ++ ts2).length + 63 + 1 from rfl]
  rw [key]

/-- Witness for claim C8: 1 + 1 2 + 2 fails with UnexpectedToken on the
second statement's leading 2. -/
theorem claim_C8_witness :
    parse [Token.number "1", Token.plus, Token.number "1",
           Token.number "2", Token.plus, Token.number "2"]
      = .error (.unexpectedToken (Token.number "2")) :=
  claim_C8_missing_newline [Token.number "1", Token.plus, Token.number "1"]
    [Token.number "2", Token.plus, Token.number "2"] [Token.plus, Token.number "2"]
    (.Add (.Number "1") (.Number "1")) (Token.number "2") rfl (by decide) rfl (by decide)

theorem pMinPrec_minusChain (n : Nat) : ∀ (fuel mp : Nat) (x : String), n < fuel →
    (parserFns fuel).pMinPrec mp (List.replicate n Token.minus ++ [Token.number x])
      = .ok (iterUM n (.Number x), []) := by
  induction n with
  | zero =>
    intro fuel mp x h
    cases fuel with
    | zero => omega
    | succ m => rfl
  | succ n ih =>
    intro fuel mp x h
    cases fuel with
    | zero => omega
    | succ m =>
      rw [parserFns_succ, parserStep_pMinPrec, List.replicate_succ, List.cons_append]
      show parseMinPrecStep (parserFns m) mp
        (Token.minus :: (List.replicate n Token.minus ++ [Token.number x])) = _
      simp only [parseMinPrecStep, opPrecedence]
      rw [ih m 4 x (by omega)]
      rfl

theorem pExpr_minusChain (fuel n : Nat) (x : String) (h : n + 2 ≤ fuel) :
    (parserFns fuel).pExpr (List.replicate n Token.minus ++ [Token.number x])
      = .ok (iterUM n (.Number x), []) := by
  cases fuel with
  | zero => omega
  | succ m =>
    cases m with
    | zero => omega
    | succ k =>
      rw [parserFns_succ, parserStep_pExpr]
      unfold parseExpressionStep
      rw [pMinPrec_minusChain n (k + 1) 0 x (by omega)]
      rfl

theorem parse_minusChain (n : Nat) (x : String) :
    parse (List.replicate n Token.minus ++ [Token.number x])
      = .ok (.Lines [some (iterUM n (.Number x))]) := by
  cases n with
  | zero => rfl
  | succ k =>
    unfold parse parseFuel
    rw [List.replicate_succ, List.cons_append]
    have hlen : (Token.minus :: (List.replicate k Token.minus ++ [Token.number x])).length
        = k + 2 := by simp
    rw [hlen, show 8 * (k + 2) + 64 = 8 * k + 79 + 1 from by omega,
      parserFns_succ, parserStep_pBlock]
    simp only [parseBlockStep]
    have hE := pExpr_minusChain (8 * k + 79) (k + 1) x (by omega)
    rw [List.replicate_succ, List.cons_append] at hE
    simp only [hE]
    rw [show 8 * k + 79 = 8 * k + 78 + 1 from by omega, parserFns_succ, parserStep_pBlock]
    rfl

theorem evalAst_iterUM (n : Nat) : ∀ (fuel : Nat) (ctx : Context) (x : String) (v : ℚ),
    parseNumber x = some v → n < fuel →
    (evalFns fuel).evalAst ctx (iterUM n (.Number x))
      = .ok ((if n % 2 = 0 then v else -v), ctx) := by
  induction n with
  | zero =>
    intro fuel ctx x v hx h
    cases fuel with
    | zero => omega
    | succ m =>
      rw [evalFns_succ, evalStep_evalAst]
      show evalAstStep (evalFns m) ctx (.Number x) = _
      simp only [evalAstStep, hx]
      norm_num
  | succ n ih =>
    intro fuel ctx x v hx h
    cases fuel with
    | zero => omega
    | succ m =>
      rw [evalFns_succ, evalStep_evalAst]
      show evalAstStep (evalFns m) ctx (.UnaryMinus (iterUM n (.Number x))) = _
      simp only [evalAstStep]
      rw [ih m ctx x v hx (by omega)]
      rcases Nat.mod_two_eq_zero_or_one n with h2 | h2 <;>
        simp [Nat.add_mod, h2]

theorem evalTokens_minusChain (n : Nat) (x : String) (v : ℚ)
    (hx : parseNumber x = some v) :
    evalTokens (List.replicate n Token.minus ++ [Token.number x])
      = .ok (if n % 2 = 0 then v else -v) := by
  unfold evalTokens
  rw [parse_minusChain n x]
  have hfe : evalFuel (List.replicate n Token.minus ++ [Token.number x])
      = n + 999 + 1 + 1 := by
    simp [evalFuel]
  rw [hfe, evalFns_succ, evalStep_evalAst]
  show (match evalAstStep (evalFns (n + 999 + 1)) Context.new
      (.Lines [some (iterUM n (.Number x))]) with
    | .error e => Except.error (CalcError.evalError e)
    | .ok (v, _) => Except.ok v) = _
  simp only [evalAstStep]
  rw [evalFns_succ, evalStep_evalLines]
  simp only [evalLinesStep]
  rw [evalAst_iterUM n (n + 999) Context.new x v hx (by omega),
    show n + 999 = n + 998 + 1 from by omega, evalFns_succ, evalStep_evalLines]
  rfl

/-- Claim C7: a chain of n leading minus signs before a literal is
absorbed greedily at unary precedence 4 and evaluates to the literal's
value when n is even and its negation when n is odd; in particular
2---2 parses as 2 - (-(-2)) and equals 0. -/
theorem claim_C7_minus_chains :
    (∀ (n : Nat) (x : String) (v : ℚ), parseNumber x = some v →
      evalTokens (List.replicate n Token.minus ++ [Token.number x])
        = .ok (if n % 2 = 0 then v else -v))
    ∧ parse [.number "2", .minus, .minus, .minus, .number "2"]
      = .ok (.Lines [some (.Subtract (.Number "2")
          (.UnaryMinus (.UnaryMinus (.Number "2"))))])
    ∧ evalTokens [.number "2", .minus, .minus, .minus, .number "2"] = .ok 0 :=
  ⟨evalTokens_minusChain, rfl, by decide⟩

/-- Witness for claim C7: three minus signs before the literal 2 evaluate
to minus 2. -/
theorem claim_C7_witness :
    evalTokens [Token.minus, Token.minus, Token.minus, Token.number "2"] = .ok (-2) := by
  have h := claim_C7_minus_chains.1 3 "2" 2 (by decide)
  simpa using h
